import Mathlib

/-!
Shallow embedding of the CodeDefender client core:
the crates `codedefender-config` (src/config/src/lib.rs),
`codedefender-utils` (src/utils/src/lib.rs), `codedefender-api`
(src/api/src/lib.rs) and the CLI binary (src/cli/src/main.rs).

Modelling conventions:

* `u64`/`usize` values (RVAs, reference counts, milliseconds) are modelled
  as `Nat`: the core only ever compares them for equality or order and
  passes them through, so machine-width wrap-around can never occur.
* Obfuscation passes, compiler settings and module settings are pass-through
  payload for the core (the code never inspects them), so the embedding is
  parametric in their types `P`, `S`, `M`; every theorem below holds for all
  instantiations, in particular for the concrete Rust structs.
* Fallible paths (`Result` in Rust, early `return`s after `log::error!` in
  `main`) are modelled with `Except CompileError`; each constructor of
  `CompileError` corresponds to exactly one fatal log-and-return site.
* The unbounded `loop` of the poller is modelled with explicit fuel: the
  result is `none` when the loop is still running after `fuel` iterations.
-/

/- `Except` ships no `DecidableEq` instance; the witnesses below evaluate
pipeline results with `decide`, so derive one. -/
deriving instance DecidableEq for Except

/-- Supported PE environments (`config/src/lib.rs`, `enum PeEnvironment`). -/
inductive PeEnvironment where
  | UserMode
  | KernelMode
  | UEFI
deriving DecidableEq

/-- One function found during analysis
(`config/src/lib.rs`, `struct AnalysisFunction`). -/
structure AnalysisFunction where
  rva : Nat
  symbol : String
  ref_count : Nat
deriving DecidableEq

/-- One function rejected by analysis, with its machine-readable category
`ty` (`config/src/lib.rs`, `struct AnalysisReject`). -/
structure AnalysisReject where
  rva : Nat
  symbol : String
  ty : String
  reason : String
deriving DecidableEq

/-- A backend-discovered grouping of RVAs under a named profile
(`config/src/lib.rs`, `struct AnalysisMacroProfile`). -/
structure AnalysisMacroProfile where
  name : String
  rvas : List Nat
deriving DecidableEq

/-- Results from binary analysis
(`config/src/lib.rs`, `struct AnalysisResult`). -/
structure AnalysisResult where
  environment : PeEnvironment
  functions : List AnalysisFunction
  rejects : List AnalysisReject
  macros : List AnalysisMacroProfile
deriving DecidableEq

/-- A symbol in the user YAML: a name or a raw RVA
(`config/src/lib.rs`, `enum YamlSymbol`). -/
inductive YamlSymbol where
  | Name (name : String)
  | Rva (rva : Nat)
deriving DecidableEq

/-- A user-declared profile (`config/src/lib.rs`, `struct YamlProfile`).
`P` is the type of one obfuscation pass, `S` of the compiler settings;
both are opaque payload to the core. -/
structure YamlProfile (P S : Type) where
  name : String
  passes : List P
  compiler_settings : S
  symbols : List YamlSymbol
  color : Option String
deriving DecidableEq

/-- A compiled profile: `symbols` resolved to raw RVAs
(`config/src/lib.rs`, `struct CDProfile`). -/
structure CDProfile (P S : Type) where
  name : String
  passes : List P
  compiler_settings : S
  symbols : List Nat
deriving DecidableEq

/-- The backend-ready request (`config/src/lib.rs`, `struct CDConfig`).
`M` is the type of the module-wide settings, opaque payload to the core. -/
structure CDConfig (M P S : Type) where
  module_settings : M
  profiles : List (CDProfile P S)
deriving DecidableEq

/-- The four fatal configuration errors of the pipeline.  Each constructor
corresponds to one `log::error!` + `return` site in `cli/src/main.rs`
(resp. one `Err` site in `utils/src/lib.rs`):
`unresolvedSymbolName` = main.rs:101-105 / utils "Missing symbol",
`unresolvedSymbolAddress` = main.rs:123-124 / utils "Invalid RVA",
`unprotectableMacroFunction` = main.rs:158-162,
`unknownMacroProfile` = main.rs:168-172. -/
inductive CompileError where
  | unresolvedSymbolName (name : String)
  | unresolvedSymbolAddress (rva : Nat)
  | unknownMacroProfile (profileName : String)
  | unprotectableMacroFunction (rva : Nat)
deriving DecidableEq

/-- Eligibility test (`utils/src/lib.rs`, `fn is_valid_rva`): an RVA is eligible iff it appears
in `functions`, or in `rejects` with category exactly `"ReadWriteToCode"`.
The inline checks at main.rs:112-121 and main.rs:145-156 are the same
two searches spelled out. -/
def is_valid_rva (rva : Nat) (analysis : AnalysisResult) : Bool :=
  analysis.functions.any (fun f => f.rva == rva)
    || analysis.rejects.any (fun r => r.rva == rva && r.ty == "ReadWriteToCode")

/-- Resolution of a single `YamlSymbol`: the body of the per-symbol loop of
`utils/src/lib.rs::resolve_symbols` (lines 12-44), inlined identically at
main.rs:83-127.  Name resolution searches `functions` first (first match
wins), then `rejects` restricted to category `"ReadWriteToCode"`; address
resolution is a pure membership check via `is_valid_rva`. -/
def resolveSymbol (symbol : YamlSymbol) (analysis : AnalysisResult) :
    Except CompileError Nat :=
  match symbol with
  | .Name name =>
    match analysis.functions.find? (fun f => f.symbol == name) with
    | some f => .ok f.rva
    | none =>
      match analysis.rejects.find?
          (fun r => r.symbol == name && r.ty == "ReadWriteToCode") with
      | some r => .ok r.rva
      | none => .error (.unresolvedSymbolName name)
  | .Rva rva =>
    if is_valid_rva rva analysis then .ok rva
    else .error (.unresolvedSymbolAddress rva)

/-- Resolution of the whole list (`utils/src/lib.rs`, `fn resolve_symbols`): resolve each reference in
declaration order, pushing results, returning the first failure (fail-fast:
the early `return Err` aborts the whole loop). -/
def resolve_symbols (symbols : List YamlSymbol) (analysis : AnalysisResult) :
    Except CompileError (List Nat) :=
  match symbols with
  | [] => .ok []
  | s :: rest =>
    match resolveSymbol s analysis with
    | .ok rva =>
      match resolve_symbols rest analysis with
      | .ok rvas => .ok (rva :: rvas)
      | .error e => .error e
    | .error e => .error e

/-- Compilation of one profile (main.rs:80-136): resolve the symbol list,
then carry `name`, `passes` and `compiler_settings` through unchanged. -/
def compileProfile {P S : Type} (profile : YamlProfile P S)
    (analysis : AnalysisResult) : Except CompileError (CDProfile P S) :=
  match resolve_symbols profile.symbols analysis with
  | .ok rvas =>
    .ok { name := profile.name
          passes := profile.passes
          compiler_settings := profile.compiler_settings
          symbols := rvas }
  | .error e => .error e

/-- Compilation of every profile in declaration order (the outer loop of
main.rs:80-137), aborting on the first failing profile. -/
def compileProfiles {P S : Type} (profiles : List (YamlProfile P S))
    (analysis : AnalysisResult) : Except CompileError (List (CDProfile P S)) :=
  match profiles with
  | [] => .ok []
  | p :: rest =>
    match compileProfile p analysis with
    | .ok cp =>
      match compileProfiles rest analysis with
      | .ok cps => .ok (cp :: cps)
      | .error e => .error e
    | .error e => .error e

/-- The validation loop of main.rs:144-164: first RVA of the group that
fails `is_valid_rva`, in given order, or `none` when all are eligible. -/
def firstInvalid (rvas : List Nat) (analysis : AnalysisResult) : Option Nat :=
  match rvas with
  | [] => none
  | r :: rest =>
    if is_valid_rva r analysis then firstInvalid rest analysis else some r

/-- Apply `f` to the first element satisfying `q`, leaving everything else
unchanged: the functional counterpart of Rust's
`iter_mut().find(..)` followed by a mutation of the found element. -/
def updateFirst {α : Type} (q : α → Bool) (f : α → α) : List α → List α
  | [] => []
  | x :: xs => if q x then f x :: xs else x :: updateFirst q f xs

/-- Merging of one macro group into the compiled profile list
(the body of the loop at main.rs:139-175): find the first profile whose
name matches (`iter_mut().find`, main.rs:140); if none, fail with
`unknownMacroProfile`; otherwise validate every RVA of the group in order
(main.rs:144-164), failing with `unprotectableMacroFunction` at the first
ineligible one; only when all are eligible, extend that profile's
`symbols` with the whole group (main.rs:165). -/
def mergeOneGroup {P S : Type} (profiles : List (CDProfile P S))
    (group : AnalysisMacroProfile) (analysis : AnalysisResult) :
    Except CompileError (List (CDProfile P S)) :=
  match profiles.find? (fun p => p.name == group.name) with
  | none => .error (.unknownMacroProfile group.name)
  | some _ =>
    match firstInvalid group.rvas analysis with
    | some bad => .error (.unprotectableMacroFunction bad)
    | none =>
      .ok (updateFirst (fun p => p.name == group.name)
            (fun p => { p with symbols := p.symbols ++ group.rvas }) profiles)

/-- The whole merge loop of main.rs:139-175: groups processed in
analysis-result order, aborting on the first failing group (the early
`return` discards the partially-mutated config, which is never used). -/
def mergeMacros {P S : Type} (profiles : List (CDProfile P S))
    (groups : List AnalysisMacroProfile) (analysis : AnalysisResult) :
    Except CompileError (List (CDProfile P S)) :=
  match groups with
  | [] => .ok profiles
  | g :: rest =>
    match mergeOneGroup profiles g analysis with
    | .ok profiles' => mergeMacros profiles' rest analysis
    | .error e => .error e

/-- Outcome of the configuration pipeline: either `api::defend` is invoked
with a fully compiled config (main.rs:178), or the process returns early at
one of the four fatal `log::error!` sites, and nothing is submitted. -/
inductive MainOutcome (M P S : Type) where
  | submitted (cfg : CDConfig M P S)
  | configError (e : CompileError)
deriving DecidableEq

/-- The pipeline from a successful analysis up to the submission point
(main.rs:74-178): build the config, compile every profile, merge every
macro group, and only then hand the config to `api::defend`. -/
def afterAnalysis {M P S : Type} (module_settings : M)
    (profiles : List (YamlProfile P S)) (analysis : AnalysisResult) :
    MainOutcome M P S :=
  match compileProfiles profiles analysis with
  | .error e => .configError e
  | .ok cps =>
    match mergeMacros cps analysis.macros analysis with
    | .error e => .configError e
    | .ok merged =>
      .submitted { module_settings := module_settings, profiles := merged }

/-- Poll responses (`api/src/lib.rs`, `enum DownloadStatus`): the payload
bytes and the error are opaque to the loop, hence type parameters. -/
inductive DownloadStatus (β ε : Type) where
  | Ready (bytes : β)
  | Processing
  | Failed (cause : ε)
deriving DecidableEq

/-- Whether a poll response is the hard-failure case. -/
def DownloadStatus.isFailed {β ε : Type} : DownloadStatus β ε → Bool
  | .Failed _ => true
  | _ => false

/-- How the poll loop of main.rs:184-205 can exit: the only two `return`
sites inside the loop are the deadline branch (main.rs:185-190) and the
`Failed` arm (main.rs:199-202).  The `Ready` arm (main.rs:194-197) writes
the output file but falls through to the sleep and the next iteration, so
the loop has no success exit. -/
inductive PollOutcome (ε : Type) where
  | timedOut
  | failed (cause : ε)
deriving DecidableEq

/-- Observable trace of one finished run of the poll loop: which exit was
taken, how many `api::download` calls were made, how many
`thread::sleep(config.timeout)` pauses happened, and the payloads written
to the output file by the `Ready` arm, in order. -/
structure PollRun (β ε : Type) where
  outcome : PollOutcome ε
  polls : Nat
  sleeps : Nat
  writes : List β
deriving DecidableEq

/-- The backend-side execution limit (main.rs:182,
`Duration::from_secs(300)`), in milliseconds. -/
def TIMEOUT_DURATION_MS : Nat := 300000

/-- The poll loop of main.rs:184-205.  `time n` is the wall-clock elapsed
(ms) since `start_time` (taken at submission, main.rs:180) when the
deadline check of iteration `n` runs; `download n` is the response of the
`n`-th `api::download` call.  Each iteration: check
`start_time.elapsed() > timeout_duration` first; then poll; `Failed` exits
at once (no sleep), `Ready` writes the payload and continues, `Processing`
continues; every continuing iteration sleeps once before the next.  The
Rust `loop` is unbounded, so the recursion is indexed by fuel: `none`
means the loop is still running after `fuel` iterations. -/
def pollLoop {β ε : Type} (time : Nat → Nat)
    (download : Nat → DownloadStatus β ε) (deadline : Nat) :
    Nat → Nat → Nat → Nat → List β → Option (PollRun β ε)
  | 0, _, _, _, _ => none
  | fuel + 1, n, polls, sleeps, writes =>
    if time n > deadline then
      some { outcome := .timedOut, polls := polls, sleeps := sleeps,
             writes := writes }
    else
      match download n with
      | .Failed c =>
        some { outcome := .failed c, polls := polls + 1, sleeps := sleeps,
               writes := writes }
      | .Ready b =>
        pollLoop time download deadline fuel (n + 1) (polls + 1)
          (sleeps + 1) (writes ++ [b])
      | .Processing =>
        pollLoop time download deadline fuel (n + 1) (polls + 1)
          (sleeps + 1) writes

/-! ### Symbol resolution (claims about `resolveSymbol`) -/

/-- Bridge between the Boolean membership test of `is_valid_rva` and its
propositional reading. -/
theorem is_valid_rva_iff (rva : Nat) (analysis : AnalysisResult) :
    is_valid_rva rva analysis = true ↔
      (∃ f ∈ analysis.functions, f.rva = rva) ∨
        ∃ r ∈ analysis.rejects, r.rva = rva ∧ r.ty = "ReadWriteToCode" := by
  simp [is_valid_rva, List.any_eq_true]

/-- Concrete analysis result used by several witnesses below:
one eligible function, one force-resolvable rejection, one hard rejection. -/
def analysisEx : AnalysisResult :=
  { environment := .UserMode
    functions := [{ rva := 4096, symbol := "foo", ref_count := 1 }]
    rejects :=
      [{ rva := 8192, symbol := "bar", ty := "ReadWriteToCode", reason := "rw" },
       { rva := 12288, symbol := "qux", ty := "Leaf", reason := "leaf" }]
    macros := [] }

/-- Claim C2: for a name-form reference `ByName(name)`, if some entry of
`functions` has that name then resolution returns the address of the first
such entry (taking precedence over any rejection); if no `functions` entry
matches but some `rejections` entry has that name with category exactly
`"ReadWriteToCode"`, resolution returns that rejection's address; otherwise
it fails with `UnresolvedSymbolName`. -/
theorem resolve_byName_characterization (analysis : AnalysisResult)
    (name : String) :
    ((∃ f ∈ analysis.functions, f.symbol = name) →
      ∃ g, analysis.functions.find? (fun f => f.symbol == name) = some g ∧
        g.symbol = name ∧ resolveSymbol (.Name name) analysis = .ok g.rva)
    ∧ (analysis.functions.find? (fun f => f.symbol == name) = none →
      ∀ r, analysis.rejects.find?
          (fun r => r.symbol == name && r.ty == "ReadWriteToCode") = some r →
        resolveSymbol (.Name name) analysis = .ok r.rva)
    ∧ (analysis.functions.find? (fun f => f.symbol == name) = none →
      analysis.rejects.find?
          (fun r => r.symbol == name && r.ty == "ReadWriteToCode") = none →
      resolveSymbol (.Name name) analysis =
        .error (.unresolvedSymbolName name)) := by
  refine ⟨?_, ?_, ?_⟩
  · intro h
    have hsome : (analysis.functions.find? (fun f => f.symbol == name)).isSome := by
      rw [List.find?_isSome]
      obtain ⟨f, hf, hn⟩ := h
      exact ⟨f, hf, by simp [hn]⟩
    obtain ⟨g, hg⟩ := Option.isSome_iff_exists.mp hsome
    refine ⟨g, hg, by simpa using List.find?_some hg, ?_⟩
    simp [resolveSymbol, hg]
  · intro hnone r hr
    simp [resolveSymbol, hnone, hr]
  · intro hnone hrnone
    simp [resolveSymbol, hnone, hrnone]

/-- Witness for C2 at concrete inputs: `"foo"` resolves through `functions`,
`"bar"` only through the `"ReadWriteToCode"` rejection, `"nope"` fails. -/
theorem resolve_byName_characterization_witness :
    (∃ g, analysisEx.functions.find? (fun f => f.symbol == "foo") = some g ∧
      g.symbol = "foo" ∧ resolveSymbol (.Name "foo") analysisEx = .ok g.rva)
    ∧ resolveSymbol (.Name "bar") analysisEx = .ok 8192
    ∧ resolveSymbol (.Name "nope") analysisEx =
        .error (.unresolvedSymbolName "nope") :=
  ⟨(resolve_byName_characterization analysisEx "foo").1
      ⟨{ rva := 4096, symbol := "foo", ref_count := 1 }, by decide, rfl⟩,
    (resolve_byName_characterization analysisEx "bar").2.1 (by decide)
      { rva := 8192, symbol := "bar", ty := "ReadWriteToCode", reason := "rw" }
      (by decide),
    (resolve_byName_characterization analysisEx "nope").2.2 (by decide)
      (by decide)⟩

/-- Claim C3: for an address-form reference `ByAddress(addr)`, resolution
succeeds (yielding `addr` unchanged) iff `addr` appears in `functions` or in
`rejections` with category exactly `"ReadWriteToCode"`; otherwise it fails
with `UnresolvedSymbolAddress`. -/
theorem resolve_byAddress_characterization (analysis : AnalysisResult)
    (rva : Nat) :
    (resolveSymbol (.Rva rva) analysis = .ok rva ↔
      (∃ f ∈ analysis.functions, f.rva = rva) ∨
        ∃ r ∈ analysis.rejects, r.rva = rva ∧ r.ty = "ReadWriteToCode")
    ∧ (¬ ((∃ f ∈ analysis.functions, f.rva = rva) ∨
        ∃ r ∈ analysis.rejects, r.rva = rva ∧ r.ty = "ReadWriteToCode") →
      resolveSymbol (.Rva rva) analysis =
        .error (.unresolvedSymbolAddress rva)) := by
  constructor
  · rw [← is_valid_rva_iff]
    by_cases h : is_valid_rva rva analysis <;> simp [resolveSymbol, h]
  · rw [← is_valid_rva_iff]
    intro h
    have h' : is_valid_rva rva analysis = false := by
      revert h; cases is_valid_rva rva analysis <;> simp
    simp [resolveSymbol, h']

/-- Witness for C3 at a concrete input: RVA `999` is in neither list, so
address resolution fails with `UnresolvedSymbolAddress`. -/
theorem resolve_byAddress_characterization_witness :
    resolveSymbol (.Rva 999) analysisEx =
      .error (.unresolvedSymbolAddress 999) :=
  (resolve_byAddress_characterization analysisEx 999).2 (by decide)

/-! ### Profile compilation (fail-fast) and submission gating -/

/-- Fail-fast shape of `resolve_symbols`: with every reference before `bad`
resolving and `bad` failing with `e`, the whole list fails with `e`,
whatever comes after `bad` (the loop never reaches it). -/
theorem resolve_symbols_fail_fast (analysis : AnalysisResult) :
    ∀ (pre post : List YamlSymbol) (bad : YamlSymbol) (e : CompileError),
      (∀ s ∈ pre, ∃ rva, resolveSymbol s analysis = .ok rva) →
      resolveSymbol bad analysis = .error e →
      resolve_symbols (pre ++ bad :: post) analysis = .error e := by
  intro pre
  induction pre with
  | nil =>
    intro post bad e _ hbad
    simp [resolve_symbols, hbad]
  | cons s pre' ih =>
    intro post bad e hpre hbad
    obtain ⟨rva, hs⟩ := hpre s (by simp)
    have ih' := ih post bad e (fun x hx => hpre x (by simp [hx])) hbad
    simp [resolve_symbols, hs, ih']

/-- On a successfully compiled profile list, every member profile compiled
successfully on its own. -/
theorem compileProfiles_ok_mem {P S : Type} (analysis : AnalysisResult) :
    ∀ (l : List (YamlProfile P S)) (cps : List (CDProfile P S)),
      compileProfiles l analysis = .ok cps →
      ∀ yp ∈ l, ∃ cp, compileProfile yp analysis = .ok cp := by
  intro l
  induction l with
  | nil => intro cps _ yp hyp; cases hyp
  | cons p rest ih =>
    intro cps hok yp hyp
    cases h1 : compileProfile p analysis with
    | error e => simp [compileProfiles, h1] at hok
    | ok cp =>
      cases h2 : compileProfiles rest analysis with
      | error e2 => simp [compileProfiles, h1, h2] at hok
      | ok cps' =>
        cases hyp with
        | head => exact ⟨cp, h1⟩
        | tail _ hmem => exact ih cps' h2 yp hmem

/-- Claim C5: a profile whose symbol list contains an unresolvable reference
fails at the first such reference in declaration order (whatever follows it
is irrelevant: `post` is universally quantified), and no compiled profile or
compiled config containing that profile is ever produced. -/
theorem profile_compilation_fail_fast (M P S : Type)
    (analysis : AnalysisResult) (pre post : List YamlSymbol)
    (bad : YamlSymbol) (e : CompileError)
    (hpre : ∀ s ∈ pre, ∃ rva, resolveSymbol s analysis = .ok rva)
    (hbad : resolveSymbol bad analysis = .error e) :
    resolve_symbols (pre ++ bad :: post) analysis = .error e
    ∧ ∀ yp : YamlProfile P S, yp.symbols = pre ++ bad :: post →
      compileProfile yp analysis = .error e
      ∧ ∀ (ms : M) (pres posts : List (YamlProfile P S))
          (cfg : CDConfig M P S),
          afterAnalysis ms (pres ++ yp :: posts) analysis ≠ .submitted cfg := by
  have h1 := resolve_symbols_fail_fast analysis pre post bad e hpre hbad
  refine ⟨h1, ?_⟩
  intro yp hsyms
  have h2 : compileProfile yp analysis = .error e := by
    simp [compileProfile, hsyms, h1]
  refine ⟨h2, ?_⟩
  intro ms pres posts cfg hsub
  cases h3 : compileProfiles (pres ++ yp :: posts) analysis with
  | error e2 => simp [afterAnalysis, h3] at hsub
  | ok cps =>
    obtain ⟨cp, hcp⟩ := compileProfiles_ok_mem analysis _ cps h3 yp (by simp)
    rw [h2] at hcp
    simp at hcp

/-- Fixtures for the pipeline witnesses: a profile that resolves, one that
does not, and an analysis whose macro list names an undeclared profile. -/
def ypGood : YamlProfile Unit Unit :=
  { name := "P", passes := [], compiler_settings := (),
    symbols := [.Name "foo"], color := none }

def ypBad : YamlProfile Unit Unit :=
  { name := "P", passes := [], compiler_settings := (),
    symbols := [.Name "foo", .Name "nope", .Rva 4096], color := none }

def cfgGood : CDConfig Unit Unit Unit :=
  { module_settings := (),
    profiles := [{ name := "P", passes := [], compiler_settings := (),
                   symbols := [4096] }] }

def analysisZ : AnalysisResult :=
  { analysisEx with macros := [{ name := "Z", rvas := [] }] }

/-- Witness for C5 at concrete inputs: the second reference of `ypBad` is
unresolvable, so the list fails there and the config is never submitted. -/
theorem profile_compilation_fail_fast_witness :
    resolve_symbols [.Name "foo", .Name "nope", .Rva 4096] analysisEx =
      .error (.unresolvedSymbolName "nope")
    ∧ compileProfile ypBad analysisEx =
        .error (.unresolvedSymbolName "nope")
    ∧ afterAnalysis () [ypBad] analysisEx ≠
        .submitted { module_settings := (), profiles := [] } := by
  have h := profile_compilation_fail_fast Unit Unit Unit analysisEx
    [.Name "foo"] [.Rva 4096] (.Name "nope") (.unresolvedSymbolName "nope")
    (by
      intro s hs
      rw [List.mem_singleton] at hs
      subst hs
      exact ⟨4096, by decide⟩)
    (by decide)
  have h2 := h.2 ypBad rfl
  exact ⟨h.1, h2.1,
    h2.2 () [] [] { module_settings := (), profiles := [] }⟩

/-- Claim C4: the compiled configuration reaches `api::defend` only when
every profile compiled and every macro group merged without error; any fatal
configuration error makes the pipeline return before submission. -/
theorem submission_gated_on_full_compilation (M P S : Type)
    (analysis : AnalysisResult) (ms : M)
    (profiles : List (YamlProfile P S)) :
    (∀ cfg, afterAnalysis ms profiles analysis = .submitted cfg →
      ∃ cps, compileProfiles profiles analysis = .ok cps ∧
        mergeMacros cps analysis.macros analysis = .ok cfg.profiles ∧
        cfg.module_settings = ms)
    ∧ (∀ e, compileProfiles profiles analysis = .error e →
      afterAnalysis ms profiles analysis = .configError e)
    ∧ (∀ cps e, compileProfiles profiles analysis = .ok cps →
      mergeMacros cps analysis.macros analysis = .error e →
      afterAnalysis ms profiles analysis = .configError e) := by
  refine ⟨?_, ?_, ?_⟩
  · intro cfg hsub
    unfold afterAnalysis at hsub
    split at hsub
    · exact absurd hsub (by simp)
    · rename_i cps heq
      split at hsub
      · exact absurd hsub (by simp)
      · rename_i merged heq2
        injection hsub with h4
        subst h4
        exact ⟨cps, heq, heq2, rfl⟩
  · intro e h1
    simp [afterAnalysis, h1]
  · intro cps e h1 h2
    simp [afterAnalysis, h1, h2]

/-- Witness for C4 at concrete inputs: a clean pipeline is submitted, and
each of the two stages blocks submission when it fails. -/
theorem submission_gated_on_full_compilation_witness :
    (∃ cps, compileProfiles [ypGood] analysisEx = .ok cps ∧
      mergeMacros cps analysisEx.macros analysisEx = .ok cfgGood.profiles ∧
      cfgGood.module_settings = ())
    ∧ afterAnalysis () [ypBad] analysisEx =
        .configError (.unresolvedSymbolName "nope")
    ∧ afterAnalysis () [ypGood] analysisZ =
        .configError (.unknownMacroProfile "Z") :=
  ⟨(submission_gated_on_full_compilation Unit Unit Unit analysisEx ()
      [ypGood]).1 cfgGood (by decide),
    (submission_gated_on_full_compilation Unit Unit Unit analysisEx ()
      [ypBad]).2.1 (.unresolvedSymbolName "nope") (by decide),
    (submission_gated_on_full_compilation Unit Unit Unit analysisZ ()
      [ypGood]).2.2
      [{ name := "P", passes := [], compiler_settings := (),
         symbols := [4096] }]
      (.unknownMacroProfile "Z") (by decide) (by decide)⟩

/-! ### Macro-group merging -/

/-- A group whose addresses are all eligible passes the validation loop. -/
theorem firstInvalid_eq_none (analysis : AnalysisResult) :
    ∀ rvas : List Nat, (∀ r ∈ rvas, is_valid_rva r analysis = true) →
      firstInvalid rvas analysis = none := by
  intro rvas
  induction rvas with
  | nil => intro _; rfl
  | cons r rest ih =>
    intro h
    have hr := h r (by simp)
    simp [firstInvalid, hr, ih (fun x hx => h x (by simp [hx]))]

/-- The validation loop stops at the first ineligible address. -/
theorem firstInvalid_append (analysis : AnalysisResult) :
    ∀ (pre post : List Nat) (bad : Nat),
      (∀ r ∈ pre, is_valid_rva r analysis = true) →
      is_valid_rva bad analysis = false →
      firstInvalid (pre ++ bad :: post) analysis = some bad := by
  intro pre
  induction pre with
  | nil => intro post bad _ hbad; simp [firstInvalid, hbad]
  | cons r pre' ih =>
    intro post bad hpre hbad
    have hr := hpre r (by simp)
    simp [firstInvalid, hr,
      ih post bad (fun x hx => hpre x (by simp [hx])) hbad]

/-- A group containing some ineligible address has a first ineligible one,
and the validation loop reports it. -/
theorem firstInvalid_of_exists (analysis : AnalysisResult) :
    ∀ rvas : List Nat, (∃ r ∈ rvas, is_valid_rva r analysis = false) →
      ∃ bad, firstInvalid rvas analysis = some bad ∧ bad ∈ rvas ∧
        is_valid_rva bad analysis = false := by
  intro rvas
  induction rvas with
  | nil => intro h; obtain ⟨r, hr, _⟩ := h; cases hr
  | cons r rest ih =>
    intro h
    cases hv : is_valid_rva r analysis with
    | false => exact ⟨r, by simp [firstInvalid, hv], by simp, hv⟩
    | true =>
      obtain ⟨r', hr', hbad'⟩ := h
      rcases List.mem_cons.mp hr' with heq | hmem
      · subst heq; rw [hv] at hbad'; cases hbad'
      · obtain ⟨bad, hfi, hmem2, hbad2⟩ := ih ⟨r', hmem, hbad'⟩
        exact ⟨bad, by simp [firstInvalid, hv, hfi], by simp [hmem2], hbad2⟩

/-- The first match of the list is what `find?` yields. -/
theorem find?_first_match {α : Type} (q : α → Bool) :
    ∀ (pre : List α) (x : α) (post : List α),
      (∀ y ∈ pre, q y = false) → q x = true →
      (pre ++ x :: post).find? q = some x := by
  intro pre
  induction pre with
  | nil => intro x post _ hx; simp [List.find?_cons, hx]
  | cons y pre' ih =>
    intro x post hpre hx
    have hy := hpre y (by simp)
    simp [List.find?_cons, hy,
      ih x post (fun z hz => hpre z (by simp [hz])) hx]

/-- Only the first match of the list is rewritten by `updateFirst`. -/
theorem updateFirst_append {α : Type} (q : α → Bool) (f : α → α) :
    ∀ (pre : List α) (x : α) (post : List α),
      (∀ y ∈ pre, q y = false) → q x = true →
      updateFirst q f (pre ++ x :: post) = pre ++ f x :: post := by
  intro pre
  induction pre with
  | nil => intro x post _ hx; simp [updateFirst, hx]
  | cons y pre' ih =>
    intro x post hpre hx
    have hy := hpre y (by simp)
    simp [updateFirst, hy,
      ih x post (fun z hz => hpre z (by simp [hz])) hx]

/-- Claim C6: merging is all-or-nothing per group.  A group whose
`profileName` matches no compiled profile fails with `UnknownMacroProfile`;
a matched group with at least one ineligible address fails with
`UnprotectableMacroFunction`.  In both cases the result is an error, so no
profile list is produced at all: nothing is appended to any profile. -/
theorem merge_group_all_or_nothing (P S : Type) (analysis : AnalysisResult)
    (profiles : List (CDProfile P S)) (group : AnalysisMacroProfile) :
    ((∀ p ∈ profiles, p.name ≠ group.name) →
      mergeOneGroup profiles group analysis =
        .error (.unknownMacroProfile group.name))
    ∧ ((∃ p ∈ profiles, p.name = group.name) →
      (∃ r ∈ group.rvas, is_valid_rva r analysis = false) →
      ∃ bad ∈ group.rvas, is_valid_rva bad analysis = false ∧
        mergeOneGroup profiles group analysis =
          .error (.unprotectableMacroFunction bad)) := by
  refine ⟨?_, ?_⟩
  · intro h
    have hnone : profiles.find? (fun p => p.name == group.name) = none := by
      rw [List.find?_eq_none]
      intro p hp
      simp [h p hp]
    simp [mergeOneGroup, hnone]
  · intro hex hinv
    have hsome : (profiles.find? (fun p => p.name == group.name)).isSome := by
      rw [List.find?_isSome]
      obtain ⟨p, hp, hn⟩ := hex
      exact ⟨p, hp, by simp [hn]⟩
    obtain ⟨p, hp⟩ := Option.isSome_iff_exists.mp hsome
    obtain ⟨bad, hfi, hmem, hbad⟩ := firstInvalid_of_exists analysis _ hinv
    exact ⟨bad, hmem, hbad, by simp [mergeOneGroup, hp, hfi]⟩

/-- Fixtures for the merge witnesses: two profiles sharing the name `"A"`,
one named `"B"`, and macro groups over the eligible RVAs of `analysisEx`. -/
def cdpA1 : CDProfile Unit Unit :=
  { name := "A", passes := [], compiler_settings := (), symbols := [4096] }

def cdpA2 : CDProfile Unit Unit :=
  { name := "A", passes := [], compiler_settings := (), symbols := [8192] }

def cdpB : CDProfile Unit Unit :=
  { name := "B", passes := [], compiler_settings := (), symbols := [8192] }

def gA : AnalysisMacroProfile := { name := "A", rvas := [4096] }

def gB : AnalysisMacroProfile := { name := "B", rvas := [8192] }

def gA2 : AnalysisMacroProfile := { name := "A", rvas := [8192] }

/-- Witness for C6 at concrete inputs: an unmatched group name fails with
`UnknownMacroProfile`; a matched group with the ineligible RVA `999` fails
with `UnprotectableMacroFunction 999`. -/
theorem merge_group_all_or_nothing_witness :
    mergeOneGroup [cdpA1] { name := "Z", rvas := [] } analysisEx =
      .error (.unknownMacroProfile "Z")
    ∧ ∃ bad ∈ [4096, 999, 8192], is_valid_rva bad analysisEx = false ∧
      mergeOneGroup [cdpA1] { name := "A", rvas := [4096, 999, 8192] }
        analysisEx = .error (.unprotectableMacroFunction bad) :=
  ⟨(merge_group_all_or_nothing Unit Unit analysisEx [cdpA1]
      { name := "Z", rvas := [] }).1 (by decide),
    (merge_group_all_or_nothing Unit Unit analysisEx [cdpA1]
      { name := "A", rvas := [4096, 999, 8192] }).2 (by decide) (by decide)⟩

/-- Claim C10: a macro group whose name is borne by several profiles merges
without error (given eligible addresses) and appends only to the first such
profile in declaration order; everything before and after the first match —
including later profiles with the same name — is returned unchanged. -/
theorem merge_duplicate_names_first_only (P S : Type)
    (analysis : AnalysisResult) (pre post : List (CDProfile P S))
    (p : CDProfile P S) (group : AnalysisMacroProfile)
    (hpre : ∀ q ∈ pre, q.name ≠ group.name) (hp : p.name = group.name)
    (hvalid : ∀ r ∈ group.rvas, is_valid_rva r analysis = true) :
    mergeOneGroup (pre ++ p :: post) group analysis =
      .ok (pre ++ { p with symbols := p.symbols ++ group.rvas } :: post) := by
  have hfind : (pre ++ p :: post).find? (fun q => q.name == group.name) =
      some p :=
    find?_first_match _ pre p post
      (fun y hy => by simp [hpre y hy]) (by simp [hp])
  have hfi := firstInvalid_eq_none analysis group.rvas hvalid
  have hupd := updateFirst_append (fun q => q.name == group.name)
    (fun q => { q with symbols := q.symbols ++ group.rvas }) pre p post
    (fun y hy => by simp [hpre y hy]) (by simp [hp])
  simp [mergeOneGroup, hfind, hfi, hupd]

/-- Witness for C10 at concrete inputs: both profiles are named `"A"`; the
group lands on the first one only, the second is untouched, no error. -/
theorem merge_duplicate_names_first_only_witness :
    mergeOneGroup [cdpA1, cdpA2] gA analysisEx =
      .ok [{ cdpA1 with symbols := cdpA1.symbols ++ gA.rvas }, cdpA2] :=
  merge_duplicate_names_first_only Unit Unit analysisEx [] [cdpA2] cdpA1 gA
    (by simp) rfl (by decide)

/-- Addresses the macro groups contribute to a profile named `nm`:
one block per group with that name, in analysis-result order, each block in
its given intra-group order, never deduplicated. -/
def groupAppends (nm : String) : List AnalysisMacroProfile → List Nat
  | [] => []
  | g :: gs => (if g.name = nm then g.rvas else []) ++ groupAppends nm gs

/-- Pointwise-equal functions map lists equally. -/
theorem map_congr_mem {α β : Type} (f g : α → β) :
    ∀ l : List α, (∀ x ∈ l, f x = g x) → l.map f = l.map g := by
  intro l
  induction l with
  | nil => intro _; rfl
  | cons x xs ih =>
    intro h
    rw [List.map_cons, List.map_cons, h x (by simp),
      ih (fun y hy => h y (by simp [hy]))]

/-- A map that fixes every element of the list is the identity on it. -/
theorem map_eq_self_of {α : Type} (f : α → α) :
    ∀ l : List α, (∀ x ∈ l, f x = x) → l.map f = l := by
  intro l
  induction l with
  | nil => intro _; rfl
  | cons x xs ih =>
    intro h
    rw [List.map_cons, h x (by simp), ih (fun y hy => h y (by simp [hy]))]

/-- The merge step of one group does not change profile names. -/
theorem updateFirst_map_name {P S : Type} (g : AnalysisMacroProfile) :
    ∀ ps : List (CDProfile P S),
      (updateFirst (fun p => p.name == g.name)
          (fun p => { p with symbols := p.symbols ++ g.rvas }) ps).map
        (fun p => p.name) = ps.map (fun p => p.name) := by
  intro ps
  induction ps with
  | nil => rfl
  | cons p rest ih =>
    cases hq : (p.name == g.name) with
    | true => simp [updateFirst, hq]
    | false => simp [updateFirst, hq, ih]

/-- Key step for C7: under distinct profile names, folding one group into
the profile list and then appending the remaining groups' contributions is
the same as appending the contributions of all groups at once. -/
theorem updateFirst_map_groupAppends {P S : Type} (g : AnalysisMacroProfile)
    (gs : List AnalysisMacroProfile) :
    ∀ ps : List (CDProfile P S), (ps.map (fun p => p.name)).Nodup →
      (updateFirst (fun p => p.name == g.name)
          (fun p => { p with symbols := p.symbols ++ g.rvas }) ps).map
        (fun p => { p with symbols := p.symbols ++ groupAppends p.name gs })
      = ps.map (fun p =>
          { p with symbols := p.symbols ++ groupAppends p.name (g :: gs) }) := by
  intro ps
  induction ps with
  | nil => intro _; rfl
  | cons p rest ih =>
    intro hnd
    rw [List.map_cons, List.nodup_cons] at hnd
    obtain ⟨hnotin, hnd'⟩ := hnd
    have hrest : ∀ x ∈ rest, x.name ≠ p.name := by
      intro x hx hxp
      exact hnotin (hxp ▸ List.mem_map_of_mem (fun p => p.name) hx)
    cases hq : (p.name == g.name) with
    | true =>
      have hpg : p.name = g.name := by simpa using hq
      have hstep : updateFirst (fun p => p.name == g.name)
          (fun p => { p with symbols := p.symbols ++ g.rvas }) (p :: rest)
          = { p with symbols := p.symbols ++ g.rvas } :: rest := by
        simp [updateFirst, hq]
      rw [hstep, List.map_cons, List.map_cons, List.cons.injEq]
      refine ⟨?_, ?_⟩
      · simp [groupAppends, hpg, List.append_assoc]
      · apply map_congr_mem
        intro x hx
        have hne : ¬ g.name = x.name := fun h =>
          hrest x hx (by rw [← hpg] at h; exact h.symm)
        simp [groupAppends, hne]
    | false =>
      have hpg : ¬ p.name = g.name := by simpa using hq
      have hstep : updateFirst (fun p => p.name == g.name)
          (fun p => { p with symbols := p.symbols ++ g.rvas }) (p :: rest)
          = p :: updateFirst (fun p => p.name == g.name)
              (fun p => { p with symbols := p.symbols ++ g.rvas }) rest := by
        simp [updateFirst, hq]
      rw [hstep, List.map_cons, List.map_cons, List.cons.injEq]
      refine ⟨?_, ?_⟩
      · have hne : ¬ g.name = p.name := fun h => hpg h.symm
        simp [groupAppends, hne]
      · exact ih hnd'

/-- A successful merge of one group is exactly an `updateFirst`. -/
theorem mergeOneGroup_ok {P S : Type} (analysis : AnalysisResult)
    (ps ps₁ : List (CDProfile P S)) (g : AnalysisMacroProfile)
    (h : mergeOneGroup ps g analysis = .ok ps₁) :
    ps₁ = updateFirst (fun p => p.name == g.name)
      (fun p => { p with symbols := p.symbols ++ g.rvas }) ps := by
  unfold mergeOneGroup at h
  split at h
  · exact absurd h (by simp)
  · split at h
    · exact absurd h (by simp)
    · injection h with h'
      exact h'.symm

/-- Claim C7, amended: provided no two profiles share a name, a successful
merge leaves every profile with its user-declared addresses followed by the
addresses of each macro group bearing its name, groups in analysis-result
order, intra-group order preserved, with no deduplication. -/
theorem merge_append_distinct_names (P S : Type) (analysis : AnalysisResult) :
    ∀ (gs : List AnalysisMacroProfile) (ps ps' : List (CDProfile P S)),
      (ps.map (fun p => p.name)).Nodup →
      mergeMacros ps gs analysis = .ok ps' →
      ps' = ps.map (fun p =>
        { p with symbols := p.symbols ++ groupAppends p.name gs }) := by
  intro gs
  induction gs with
  | nil =>
    intro ps ps' _ hok
    have h1 : ps = ps' := by simpa [mergeMacros] using hok
    subst h1
    exact (map_eq_self_of _ ps (fun x _ => by cases x; simp [groupAppends])).symm
  | cons g rest ih =>
    intro ps ps' hnd hok
    unfold mergeMacros at hok
    split at hok
    · rename_i ps₁ h1
      have hps₁ := mergeOneGroup_ok analysis ps ps₁ g h1
      subst hps₁
      have hnd₁ : ((updateFirst (fun p => p.name == g.name)
          (fun p => { p with symbols := p.symbols ++ g.rvas }) ps).map
            (fun p => p.name)).Nodup := by
        rw [updateFirst_map_name]
        exact hnd
      rw [ih _ ps' hnd₁ hok]
      exact updateFirst_map_groupAppends g rest ps hnd
    · exact absurd hok (by simp)

/-- Counterexample to C7 as stated: with two compiled profiles both named
`"A"` and the valid group `gA` (also named `"A"`), merging succeeds, but the
group's addresses are appended only to the first profile, so the claim's
predicted "every profile gets every matching group" shape fails for the
second profile (it would have to end in `[8192, 4096]`). -/
theorem merge_append_claim_counterexample :
    mergeMacros [cdpA1, cdpA2] [gA] analysisEx =
      .ok [{ name := "A", passes := [], compiler_settings := (),
             symbols := [4096, 4096] },
           { name := "A", passes := [], compiler_settings := (),
             symbols := [8192] }]
    ∧ ¬ ([{ name := "A", passes := [], compiler_settings := (),
            symbols := ([4096, 4096] : List Nat) },
          { name := "A", passes := [], compiler_settings := (),
            symbols := ([8192] : List Nat) }] : List (CDProfile Unit Unit)) =
        [cdpA1, cdpA2].map (fun p =>
          { p with symbols := p.symbols ++ groupAppends p.name [gA] }) :=
  ⟨by decide, by decide⟩

/-- Macro groups used by the C7 witness: two for `"A"`, one for `"B"`. -/
def gsW : List AnalysisMacroProfile := [gA, gB, gA2]

/-- Witness for the amended C7 at concrete inputs with distinct profile
names: profile `"A"` collects the blocks of `gA` then `gA2` after its own
address (with a duplicate kept), `"B"` collects the block of `gB`. -/
theorem merge_append_distinct_names_witness :
    ([{ name := "A", passes := [], compiler_settings := (),
        symbols := [4096, 4096, 8192] },
      { name := "B", passes := [], compiler_settings := (),
        symbols := [8192, 8192] }] : List (CDProfile Unit Unit)) =
      [cdpA1, cdpB].map (fun p =>
        { p with symbols := p.symbols ++ groupAppends p.name gsW }) :=
  merge_append_distinct_names Unit Unit analysisEx gsW [cdpA1, cdpB] _
    (by decide) (by decide)

/-! ### The poll loop -/

/-- Iteration whose deadline check fires: the loop returns `timedOut` at
once, without polling again. -/
theorem pollLoop_timeout_exit {β ε : Type} (time : Nat → Nat)
    (download : Nat → DownloadStatus β ε) (deadline fuel n polls sleeps : Nat)
    (writes : List β) (hn : time n > deadline) :
    pollLoop time download deadline (fuel + 1) n polls sleeps writes =
      some { outcome := .timedOut, polls := polls, sleeps := sleeps,
             writes := writes } := by
  rw [pollLoop, if_pos hn]

/-- Iteration that polls and sees `Failed`: the loop returns at once,
without sleeping. -/
theorem pollLoop_failed_exit {β ε : Type} (time : Nat → Nat)
    (download : Nat → DownloadStatus β ε) (deadline fuel n polls sleeps : Nat)
    (writes : List β) (c : ε) (hn : ¬ time n > deadline)
    (hd : download n = .Failed c) :
    pollLoop time download deadline (fuel + 1) n polls sleeps writes =
      some { outcome := .failed c, polls := polls + 1, sleeps := sleeps,
             writes := writes } := by
  rw [pollLoop, if_neg hn, hd]

/-- Iteration that polls and sees `Processing`: sleep once and continue. -/
theorem pollLoop_step_processing {β ε : Type} (time : Nat → Nat)
    (download : Nat → DownloadStatus β ε) (deadline fuel n polls sleeps : Nat)
    (writes : List β) (hn : ¬ time n > deadline)
    (hd : download n = .Processing) :
    pollLoop time download deadline (fuel + 1) n polls sleeps writes =
      pollLoop time download deadline fuel (n + 1) (polls + 1) (sleeps + 1)
        writes := by
  rw [pollLoop, if_neg hn, hd]

/-- Iteration that polls and sees `Ready`: write the payload, then — as in
the source, which has no `return` in this arm — sleep once and continue. -/
theorem pollLoop_step_ready {β ε : Type} (time : Nat → Nat)
    (download : Nat → DownloadStatus β ε) (deadline fuel n polls sleeps : Nat)
    (writes : List β) (b : β) (hn : ¬ time n > deadline)
    (hd : download n = .Ready b) :
    pollLoop time download deadline (fuel + 1) n polls sleeps writes =
      pollLoop time download deadline fuel (n + 1) (polls + 1) (sleeps + 1)
        (writes ++ [b]) := by
  rw [pollLoop, if_neg hn, hd]

/-- With every response `Processing`, the loop exits `timedOut` no later
than the first iteration whose elapsed time beats the deadline. -/
theorem pollLoop_timeout_aux {β ε : Type} (time : Nat → Nat)
    (download : Nat → DownloadStatus β ε) (deadline : Nat)
    (hall : ∀ k, download k = .Processing) :
    ∀ (m n polls sleeps : Nat) (writes : List β),
      time (n + m) > deadline →
      ∃ r, pollLoop time download deadline (m + 1) n polls sleeps writes =
        some r ∧ r.outcome = .timedOut ∧ r.polls ≤ polls + m := by
  intro m
  induction m with
  | zero =>
    intro n polls sleeps writes htime
    rw [Nat.add_zero] at htime
    exact ⟨_, pollLoop_timeout_exit time download deadline 0 n polls sleeps
      writes htime, rfl, Nat.le_refl _⟩
  | succ m ih =>
    intro n polls sleeps writes htime
    by_cases hn : time n > deadline
    · exact ⟨_, pollLoop_timeout_exit time download deadline (m + 1) n polls
        sleeps writes hn, rfl, Nat.le_add_right polls (m + 1)⟩
    · have htime' : time (n + 1 + m) > deadline := by
        have e : n + 1 + m = n + (m + 1) := by omega
        rw [e]
        exact htime
      obtain ⟨r, hr, hout, hp⟩ := ih (n + 1) (polls + 1) (sleeps + 1)
        writes htime'
      refine ⟨r, ?_, hout, by omega⟩
      rw [pollLoop_step_processing time download deadline (m + 1) n polls
        sleeps writes hn (hall n)]
      exact hr

/-- Claim C8: with every poll reporting still-processing, the loop exits in
the `TimedOut` state as soon as the wall-clock elapsed time measured from
submission exceeds the fixed 5-minute deadline (the check runs at the top
of every iteration, before the poll), so it never polls forever: it
terminates within `m + 1` iterations and at most `m` polls, where `m` is
any iteration whose elapsed time beats the deadline. -/
theorem poll_timeout_terminates (β ε : Type) (time : Nat → Nat)
    (download : Nat → DownloadStatus β ε) (m : Nat)
    (hall : ∀ k, download k = .Processing)
    (hm : time m > TIMEOUT_DURATION_MS) :
    TIMEOUT_DURATION_MS = 5 * 60 * 1000 ∧
    ∃ r, pollLoop time download TIMEOUT_DURATION_MS (m + 1) 0 0 0 [] =
      some r ∧ r.outcome = .timedOut ∧ r.polls ≤ m := by
  refine ⟨rfl, ?_⟩
  obtain ⟨r, hr, hout, hp⟩ := pollLoop_timeout_aux time download
    TIMEOUT_DURATION_MS hall m 0 0 0 [] (by simpa using hm)
  exact ⟨r, hr, hout, by omega⟩

/-- Fixtures for the C8 witness: a clock that beats the 5-minute deadline
at the second check, and a backend that always reports processing. -/
def timeW : Nat → Nat := fun n => 300001 * n

def dlW : Nat → DownloadStatus Nat String := fun _ => .Processing

/-- Witness for C8 at concrete inputs. -/
theorem poll_timeout_terminates_witness :
    TIMEOUT_DURATION_MS = 5 * 60 * 1000 ∧
    ∃ r, pollLoop timeW dlW TIMEOUT_DURATION_MS 2 0 0 0 [] =
      some r ∧ r.outcome = .timedOut ∧ r.polls ≤ 1 :=
  poll_timeout_terminates Nat String timeW dlW 1 (fun _ => rfl) (by decide)

/-- Until the first `Failed` response, each iteration polls once and sleeps
once; the iteration that sees `Failed` returns at once. -/
theorem pollLoop_failed_aux {β ε : Type} (time : Nat → Nat)
    (download : Nat → DownloadStatus β ε) (deadline : Nat) (c : ε) :
    ∀ (k n polls sleeps : Nat) (writes : List β),
      (∀ i, i < k → (download (n + i)).isFailed = false) →
      (∀ i, i ≤ k → ¬ time (n + i) > deadline) →
      download (n + k) = .Failed c →
      ∃ w, pollLoop time download deadline (k + 1) n polls sleeps writes =
        some { outcome := .failed c, polls := polls + k + 1,
               sleeps := sleeps + k, writes := w } := by
  intro k
  induction k with
  | zero =>
    intro n polls sleeps writes _ htime hfail
    rw [Nat.add_zero] at hfail
    have hn : ¬ time n > deadline := by simpa using htime 0 (by omega)
    exact ⟨writes, pollLoop_failed_exit time download deadline 0 n polls
      sleeps writes c hn hfail⟩
  | succ k ih =>
    intro n polls sleeps writes hbefore htime hfail
    have hn : ¬ time n > deadline := by simpa using htime 0 (by omega)
    have hb0 : (download n).isFailed = false := by
      simpa using hbefore 0 (by omega)
    have hshift_before : ∀ i, i < k →
        (download (n + 1 + i)).isFailed = false := by
      intro i hi
      have h := hbefore (i + 1) (by omega)
      have e : n + (i + 1) = n + 1 + i := by omega
      rw [e] at h
      exact h
    have hshift_time : ∀ i, i ≤ k → ¬ time (n + 1 + i) > deadline := by
      intro i hi
      have h := htime (i + 1) (by omega)
      have e : n + (i + 1) = n + 1 + i := by omega
      rw [e] at h
      exact h
    have hshift_fail : download (n + 1 + k) = .Failed c := by
      have e : n + 1 + k = n + (k + 1) := by omega
      rw [e]
      exact hfail
    have e1 : polls + (k + 1) + 1 = polls + 1 + k + 1 := by omega
    have e2 : sleeps + (k + 1) = sleeps + 1 + k := by omega
    cases hd : download n with
    | Failed c' => rw [hd] at hb0; simp [DownloadStatus.isFailed] at hb0
    | Processing =>
      obtain ⟨w, hw⟩ := ih (n + 1) (polls + 1) (sleeps + 1) writes
        hshift_before hshift_time hshift_fail
      refine ⟨w, ?_⟩
      rw [pollLoop_step_processing time download deadline (k + 1) n polls
        sleeps writes hn hd, e1, e2]
      exact hw
    | Ready b =>
      obtain ⟨w, hw⟩ := ih (n + 1) (polls + 1) (sleeps + 1) (writes ++ [b])
        hshift_before hshift_time hshift_fail
      refine ⟨w, ?_⟩
      rw [pollLoop_step_ready time download deadline (k + 1) n polls
        sleeps writes b hn hd, e1, e2]
      exact hw

/-- Claim C9: the first `Failed` response terminates the loop immediately
in the `Failed` state with that cause: exactly `k + 1` polls happen for a
failure at poll `k` (the failed poll is never retried), only `k` sleeps
happen (no pause after the failure), and the exit does not wait for the
deadline — it needs only `k + 1` iterations of fuel however far the
deadline is. -/
theorem poll_failed_immediate (β ε : Type) (time : Nat → Nat)
    (download : Nat → DownloadStatus β ε) (k : Nat) (c : ε)
    (hbefore : ∀ i, i < k → (download i).isFailed = false)
    (htime : ∀ i, i ≤ k → time i ≤ TIMEOUT_DURATION_MS)
    (hk : download k = .Failed c) :
    ∃ w, pollLoop time download TIMEOUT_DURATION_MS (k + 1) 0 0 0 [] =
      some { outcome := .failed c, polls := k + 1, sleeps := k,
             writes := w } := by
  have h := pollLoop_failed_aux time download TIMEOUT_DURATION_MS c k 0 0 0 []
    (fun i hi => by simpa using hbefore i hi)
    (fun i hi => by simpa using Nat.not_lt.mpr (htime i hi))
    (by simpa using hk)
  simpa using h

/-- Fixtures for the C9 witness: one processing response, then a failure,
with elapsed time far below the deadline. -/
def timeF : Nat → Nat := fun n => n

def dlF : Nat → DownloadStatus Nat String :=
  fun n => if n = 1 then .Failed "boom" else .Processing

/-- Witness for C9 at concrete inputs: failure at the second poll exits at
once with 2 polls and 1 sleep. -/
theorem poll_failed_immediate_witness :
    ∃ w, pollLoop timeF dlF TIMEOUT_DURATION_MS 2 0 0 0 [] =
      some { outcome := .failed "boom", polls := 2, sleeps := 1,
             writes := w } :=
  poll_failed_immediate Nat String timeF dlF 1 "boom"
    (fun i hi => by
      have h : i = 0 := by omega
      subst h
      rfl)
    (fun i hi => by
      show timeF i ≤ TIMEOUT_DURATION_MS
      have h : timeF i = i := rfl
      rw [h, TIMEOUT_DURATION_MS]
      omega)
    rfl

/-- Fixtures for the C1 evaluation: the first poll answers `Ready 42`, the
later ones `Processing`; polls are 200 seconds apart, so the deadline check
fires at the third iteration. -/
def timeC1 : Nat → Nat := fun n => 200000 * n

def dlC1 : Nat → DownloadStatus Nat String :=
  fun n => if n = 0 then .Ready 42 else .Processing

/-- Claim C1 evaluated on the code at a concrete input that the claim
covers (first poll response is ready-with-bytes).  The `Ready` arm of the
source (main.rs:194-197) writes the output file but has no `break` or
`return`: the loop sleeps, polls again, and finally leaves through the
timeout branch.  Here the first response is `Ready 42`, yet the run shows
2 polls, 2 sleeps and outcome `timedOut` — not a first-response `Ready`
exit with no further polls and no wait, as the claim states. -/
theorem pollLoop_ready_does_not_stop :
    dlC1 0 = .Ready 42
    ∧ pollLoop timeC1 dlC1 TIMEOUT_DURATION_MS 3 0 0 0 [] =
      some { outcome := .timedOut, polls := 2, sleeps := 2,
             writes := [42] } :=
  ⟨rfl, by decide⟩
